import Mathlib

/-!
Shallow embedding of the provider routing / search aggregation core of the
icebergGen repository, together with proofs that settle the specification
claims against it.

Conventions of the embedding:
* JavaScript numbers are modelled as exact rationals (`ℚ`); timestamps as `ℤ`.
* A JS field that may be absent (`undefined`) is modelled as an `Option`.
* JS truthiness on numbers (`x || d`) is modelled by testing against `0`,
  the only falsy numeric value that occurs here (`NaN` is not modelled).
* JS `Map` / plain-object maps are modelled as association lists preserving
  insertion order, which is the iteration order of string-keyed JS objects.
* `Array.prototype.sort` is stable in modern engines; it is modelled by
  `List.mergeSort`, which is also stable.
-/

namespace IcebergGen

/-- JS `x || d` for numeric values: `0` is falsy and replaced by the default. -/
def jsOr (x d : ℚ) : ℚ := if x = 0 then d else x

/-- JS `String.prototype.toLowerCase` (string functions are modelled on the
underlying character list so that concrete instances compute). -/
def strToLower (s : String) : String := ⟨s.data.map Char.toLower⟩

/-- Substring occurrence on character lists. -/
def charsInclude (s pat : List Char) : Bool :=
  match s with
  | [] => pat.isEmpty
  | _ :: rest => pat.isPrefixOf s || charsInclude rest pat

/-- JS `String.prototype.includes`: `pat` occurs inside `s`. -/
def strIncludes (s pat : String) : Bool := charsInclude s.data pat.data

/-- JS `String.prototype.trim`: strip whitespace from both ends. -/
def strTrim (s : String) : String :=
  ⟨((s.data.dropWhile Char.isWhitespace).reverse.dropWhile Char.isWhitespace).reverse⟩

/-- The regex replace `\/+$` of the merger: strip all trailing slashes. -/
def strDropTrailingSlashes (s : String) : String :=
  ⟨(s.data.reverse.dropWhile (· == '/')).reverse⟩

/-- JS `String.prototype.startsWith`. -/
def strStartsWith (s pat : String) : Bool := pat.data.isPrefixOf s.data

/-- Drop the first `n` characters. -/
def strDropChars (s : String) (n : ℕ) : String := ⟨s.data.drop n⟩

/-! ## result-merger (`src/lib/utils/result-merger.ts`, in `src/unnamed/part_011`) -/

/-- `normalizeUrl` from the result merger: trim, strip trailing slashes,
strip a (lower-case) `http://`/`https://` protocol, strip a leading `www.`,
lowercase.  The regexes are case-sensitive, so the prefix tests are too. -/
def normalizeUrl (url : String) : String :=
  let s := strDropTrailingSlashes (strTrim url)
  let s := if strStartsWith s "https://" then strDropChars s 8
           else if strStartsWith s "http://" then strDropChars s 7 else s
  let s := if strStartsWith s "www." then strDropChars s 4 else s
  strToLower s

/-- The unified `SearchResult` shape produced by the provider adapters
(`src/lib/search-service-enhanced.ts`).  `image` and `knowledgeLevel` are
optional fields (absent unless set). -/
structure SearchResult where
  title : String
  url : String
  content : String
  score : ℚ
  image : Option String
  provider : String
  knowledgeLevel : Option ℕ
deriving DecidableEq, Repr, Inhabited

/-- The record built by the merger's field-defaulting step: every field is
present after `processedResult` runs. `id` generation by `uuidv4()` is
modelled by a fixed placeholder; no claim depends on ids. -/
structure MergedResult where
  id : String
  title : String
  url : String
  content : String
  description : String
  score : ℚ
  provider : String
  knowledgeLevel : ℕ
  image : String
deriving DecidableEq, Repr

def uuidPlaceholder : String := "uuid"

/-- The `/placeholder.svg?...` default image URL; `encodeURIComponent` of the
title is not modelled (no claim depends on images). -/
def placeholderImage (title : String) : String :=
  "/placeholder.svg?height=200&width=300&text=" ++ title

/-- The merger's `processedResult` construction.  The trailing `...result`
object spread overrides every explicitly defaulted field whose key is present
on the input: for the flattened inputs all `SearchResult` keys are present, so
only `id`, `description`, the missing `knowledgeLevel` and a missing `image`
actually take their defaults. -/
def processResult (r : SearchResult) : MergedResult where
  id := uuidPlaceholder
  title := r.title
  url := r.url
  content := r.content
  description := r.content
  score := r.score
  provider := r.provider
  knowledgeLevel := r.knowledgeLevel.getD 1
  image := r.image.getD (placeholderImage r.title)

/-- The default `providerWeights` table of the result merger. -/
def defaultProviderWeights : List (String × ℚ) :=
  [("tavily", 1), ("exa", 9/10), ("google", 4/5), ("mock", 1/2)]

/-- `providerWeights[provider] || 0.5`: table lookup with falsy fallback. -/
def weightFor (ws : List (String × ℚ)) (p : String) : ℚ :=
  match ws.lookup p with
  | some w => if w = 0 then 1/2 else w
  | none => 1/2

/-- The flattening loop of the merger: each provider's results get
`score: (result.score || 0.5) * providerWeight` and the provider name. -/
def weightResults (ws : List (String × ℚ)) (p : String)
    (rs : List SearchResult) : List SearchResult :=
  rs.map (fun r => { r with score := jsOr r.score (1/2) * weightFor ws p, provider := p })

/-- Flatten all providers' results in insertion order of the map. -/
def flattenResults (ws : List (String × ℚ))
    (m : List (String × List SearchResult)) : List SearchResult :=
  (m.map (fun pr => weightResults ws pr.1 pr.2)).flatten

/-- The dedup loop: skip falsy (empty) URLs, keep the first occurrence per
normalized URL (the `uniqueUrls` set is the `seen` accumulator), and run each
kept result through `processedResult`. -/
def dedupGo : List SearchResult → List String → List MergedResult
  | [], _ => []
  | r :: rest, seen =>
    if r.url = "" then dedupGo rest seen
    else if normalizeUrl r.url ∈ seen then dedupGo rest seen
    else processResult r :: dedupGo rest (normalizeUrl r.url :: seen)

/-- `mergedResults.sort((a, b) => (b.score || 0) - (a.score || 0))`:
stable sort by score descending. -/
def sortByScoreDesc (l : List MergedResult) : List MergedResult :=
  l.mergeSort (fun a b => b.score ≤ a.score)

/-- The position-based level of `ensureKnowledgeLevels`:
`Math.min(5, Math.max(1, Math.ceil((index / totalResults) * 5)))`. -/
def positionLevel (total index : ℕ) : ℕ :=
  (min 5 (max 1 ⌈(index : ℚ) / (total : ℚ) * 5⌉)).toNat

/-- `ensureKnowledgeLevels`: results whose `knowledgeLevel` is defined and
positive are kept; the rest get the position-based level. -/
def ensureKnowledgeLevels (results : List MergedResult) : List MergedResult :=
  results.mapIdx (fun i r =>
    if r.knowledgeLevel > 0 then r
    else { r with knowledgeLevel := positionLevel results.length i })

/-- `mergeProviderResults` of the result merger (the function the orchestrator
imports): weight, dedup by normalized URL, sort by score descending, ensure
knowledge levels. -/
def mergeProviderResults (ws : List (String × ℚ))
    (m : List (String × List SearchResult)) : List MergedResult :=
  ensureKnowledgeLevels (sortByScoreDesc (dedupGo (flattenResults ws m) []))

/-! ## Enhanced provider router (`src/lib/provider-router-enhanced.ts`) -/

/-- Per-provider health state (`ProviderStatus`).  `healthCheckStatus` keeps
its JS string values.  Statuses for distinct providers are independent, so the
operations are modelled as transformers of a single status. -/
structure ProviderStatus where
  failureCount : ℕ
  lastFailureTime : Option ℤ
  weight : ℚ
  isDeprecated : Bool
  lastErrorMessage : Option String
  responseTime : List ℚ
  successCount : ℕ
  healthCheckStatus : String
  cooldownMultiplier : ℚ
deriving DecidableEq, Repr

/-- Initial status of every provider. -/
def initialProviderStatus : ProviderStatus where
  failureCount := 0
  lastFailureTime := none
  weight := 1
  isDeprecated := false
  lastErrorMessage := none
  responseTime := []
  successCount := 0
  healthCheckStatus := "unknown"
  cooldownMultiplier := 1

/-- `trackResponseTime`: prepend and keep the last `MAX_RESPONSE_TIMES = 10`. -/
def trackResponseTime (st : ProviderStatus) (rt : ℚ) : ProviderStatus :=
  { st with responseTime := (rt :: st.responseTime).take 10 }

/-- The callers guard tracking with `if (responseTime)`, so an absent or
zero (falsy) response time is not recorded. -/
def trackIfTruthy (st : ProviderStatus) (rt : Option ℚ) : ProviderStatus :=
  match rt with
  | some r => if r = 0 then st else trackResponseTime st r
  | none => st

/-- `getAverageResponseTime`: `null` when no samples exist. -/
def averageResponseTime (st : ProviderStatus) : Option ℚ :=
  if st.responseTime = [] then none
  else some (st.responseTime.sum / (st.responseTime.length : ℚ))

/-- `failureCount / (failureCount + successCount || 1)`: the JS `|| 1` makes
the denominator `1` when both counts are `0`. -/
def failureRatioOf (st : ProviderStatus) : ℚ :=
  (st.failureCount : ℚ) /
    (if st.failureCount + st.successCount = 0 then 1
     else ((st.failureCount + st.successCount : ℕ) : ℚ))

/-- The response-time factor: `1` when there is no (or a falsy zero) average,
otherwise `max(0.5, 1 - avg / MAX_ACCEPTABLE_RESPONSE_TIME)`. -/
def responseTimeFactorOf (st : ProviderStatus) : ℚ :=
  match averageResponseTime st with
  | none => 1
  | some avg => if avg = 0 then 1 else max (1/2) (1 - avg / 5000)

/-- `Math.max(0.1, (1 - failureRatio) * responseTimeFactor)`. -/
def newWeightOf (st : ProviderStatus) : ℚ :=
  max (1/10) ((1 - failureRatioOf st) * responseTimeFactorOf st)

/-- `updateProviderWeight`: blend the previous weight 70/30 with the fresh
score, or deprecate outright when `failureCount` has reached
`FAILURE_THRESHOLD = 3`. -/
def updateProviderWeight (st : ProviderStatus) : ProviderStatus :=
  if st.failureCount ≥ 3 then
    { st with isDeprecated := true, weight := 0, healthCheckStatus := "failing" }
  else
    { st with weight := st.weight * (7/10) + newWeightOf st * (3/10) }

/-- The health string computed by `updateHealthStatus` (thresholds
`FAILURE_THRESHOLD - 1 = 2`, response times `5000`/`3000`; a falsy average
skips the response-time tests). -/
def healthStatusOf (st : ProviderStatus) : String :=
  if st.isDeprecated then "failing"
  else if st.failureCount ≥ 2 then "failing"
  else if st.failureCount > 0 then "warning"
  else
    match averageResponseTime st with
    | none => "passing"
    | some avg =>
      if avg = 0 then "passing"
      else if avg > 5000 then "warning"
      else if avg > 3000 then "warning"
      else "passing"

/-- `updateHealthStatus` rewrites only `healthCheckStatus`. -/
def updateHealthStatus (st : ProviderStatus) : ProviderStatus :=
  { st with healthCheckStatus := healthStatusOf st }

/-- `error?.message || "Unknown error"` (an absent error or empty message is
falsy). -/
def errorMessageOrDefault (msg : Option String) : String :=
  match msg with
  | some m => if m = "" then "Unknown error" else m
  | none => "Unknown error"

/-- `recordProviderFailure`: bump the failure count, stamp the failure time
and message, track the response time, then either deprecate immediately on a
rate limit (weight `0`, doubled cooldown) or recompute weight and health. -/
def recordProviderFailure (st : ProviderStatus) (now : ℤ) (errMsg : Option String)
    (isRateLimit : Bool) (responseTime : Option ℚ) : ProviderStatus :=
  let st := { st with failureCount := st.failureCount + 1,
                      lastFailureTime := some now,
                      lastErrorMessage := some (errorMessageOrDefault errMsg) }
  let st := trackIfTruthy st responseTime
  if isRateLimit then
    { st with isDeprecated := true, weight := 0,
              healthCheckStatus := "failing", cooldownMultiplier := 2 }
  else
    updateHealthStatus (updateProviderWeight st)

/-- `resetProviderStatus`: zero the failure history and restore the given
initial weight; the other fields (success count, response times, last error
message) are kept by the object spread. -/
def resetProviderStatus (st : ProviderStatus) (initialWeight : ℚ) : ProviderStatus :=
  { st with failureCount := 0, lastFailureTime := none, weight := initialWeight,
            isDeprecated := false, healthCheckStatus := "unknown",
            cooldownMultiplier := 1 }

/-- The branch structure of `recordProviderSuccess` after counting and
tracking: rebuild weight after previous failures (decrementing
`failureCount`), reset a deprecated provider to probation weight `0.5`, or
nudge a sub-`1` weight up by `0.1`. -/
def successCore (st : ProviderStatus) : ProviderStatus :=
  if st.failureCount > 0 ∧ st.isDeprecated = false then
    updateProviderWeight { st with failureCount := st.failureCount - 1 }
  else if st.isDeprecated then resetProviderStatus st (1/2)
  else if st.weight < 1 then { st with weight := min 1 (st.weight + 1/10) }
  else st

/-- `recordProviderSuccess`: bump the success count, track the response time,
run the weight-adjustment branches, and refresh the health string. -/
def recordProviderSuccess (st : ProviderStatus) (responseTime : Option ℚ) :
    ProviderStatus :=
  updateHealthStatus (successCore
    (trackIfTruthy { st with successCount := st.successCount + 1 } responseTime))

/-- `!status.lastFailureTime`: a `null` or `0` timestamp is falsy. -/
def isFalsyTime : Option ℤ → Bool
  | none => true
  | some t => t == 0

/-- Whether the stored error message marks the failure as a rate limit
(`lastErrorMessage?.toLowerCase().includes("rate limit")`). -/
def hasRateLimitMessage (st : ProviderStatus) : Bool :=
  match st.lastErrorMessage with
  | some m => strIncludes (strToLower m) "rate limit"
  | none => false

/-- The adaptive cooldown of `checkProviderRecovery`: base
`BASE_COOLDOWN_PERIOD = 5min` or `RATE_LIMIT_COOLDOWN = 1h`, multiplied by the
per-provider `cooldownMultiplier`, clamped to `[MIN_COOLDOWN = 1min,
MAX_COOLDOWN = 24h]` (milliseconds). -/
def computeCooldown (st : ProviderStatus) : ℚ :=
  let base : ℚ := if hasRateLimitMessage st then 3600000 else 300000
  min 86400000 (max 60000 (base * st.cooldownMultiplier))

/-- `checkProviderRecovery`: a deprecated provider with a truthy failure time
is reset to probation weight `0.3` once `Date.now() - lastFailureTime`
strictly exceeds the adaptive cooldown; the spread keeps `cooldownMultiplier`
and the other untouched fields. -/
def checkProviderRecovery (st : ProviderStatus) (now : ℤ) : ProviderStatus :=
  if st.isDeprecated = false ∨ isFalsyTime st.lastFailureTime then st
  else if ((now - st.lastFailureTime.getD 0 : ℤ) : ℚ) > computeCooldown st then
    { st with failureCount := 0, lastFailureTime := none, weight := 3/10,
              isDeprecated := false, healthCheckStatus := "warning" }
  else st

/-- The router-exported `mergeProviderResults`: the per-provider weight lookup
is `providerStatuses[p]?.weight || 1`, so an unknown provider or a falsy
(zero) stored weight falls back to `1`. -/
def routerEffectiveWeight (statuses : List (String × ProviderStatus))
    (p : String) : ℚ :=
  match statuses.lookup p with
  | some st => if st.weight = 0 then 1 else st.weight
  | none => 1

/-- The router-exported `mergeProviderResults` (both the `provider-router` and
`provider-router-enhanced` copies): skip empty result lists, multiply each
score by the effective weight, and sort by score descending. -/
def routerMergeProviderResults (statuses : List (String × ProviderStatus))
    (m : List (String × List SearchResult)) : List SearchResult :=
  let merged := (m.map (fun pr =>
    if pr.2 = [] then []
    else pr.2.map (fun r =>
      { r with score := r.score * routerEffectiveWeight statuses pr.1 }))).flatten
  merged.mergeSort (fun a b => b.score ≤ a.score)

/-! ## TTL cache (`src/lib/utils/cache-utils.ts`) -/

/-- `CacheEntry<T>`. -/
structure CacheEntryM (α : Type) where
  data : α
  timestamp : ℤ
  expiresAt : ℤ
deriving DecidableEq, Repr

/-- The `Map` backing `MemoryCache`, as an association list with at most one
live binding per key (`set` replaces). -/
def CacheMap (α : Type) := List (String × CacheEntryM α)

/-- `MemoryCache.set`: store with `expiresAt = now + ttl`, replacing any
previous binding of the key. -/
def cacheSet {α : Type} (c : CacheMap α) (key : String) (data : α) (ttl : ℤ)
    (now : ℤ) : CacheMap α :=
  (key, ⟨data, now, now + ttl⟩) :: c.filter (fun kv => kv.1 ≠ key)

/-- `MemoryCache.get`: `null` when absent, and when `Date.now()` is strictly
past `expiresAt` the entry is deleted and `null` returned.  Returns the value
(if any) and the cache after the lookup's eviction side effect. -/
def cacheGet {α : Type} (c : CacheMap α) (key : String) (now : ℤ) :
    Option α × CacheMap α :=
  match c.lookup key with
  | none => (none, c)
  | some e =>
    if now > e.expiresAt then (none, c.filter (fun kv => kv.1 ≠ key))
    else (some e.data, c)

/-! ## Search aggregation orchestrator (`src/lib/search-service-enhanced.ts`) -/

/-- The `SearchResponse` assembled by `comprehensiveSearch`.  The `logs`,
`providerStatuses` and `metrics` observability fields and the timestamped
`searchId` suffix are not modelled; `fromCache` is absent (`none`) on a fresh
response and set on a cache hit. -/
structure SearchResponse where
  results : List SearchResult
  query : String
  providers : List String
  searchId : String
  fromCache : Option Bool
deriving DecidableEq, Repr

/-- The cache key `search:${query}:${searchDepth}:${maxResults}:${model}:${useLLM}:${skipTavily}`. -/
def searchCacheKey (query searchDepth : String) (maxResults : ℕ) (model : String)
    (useLLM skipTavily : Bool) : String :=
  "search:" ++ query ++ ":" ++ searchDepth ++ ":" ++ toString maxResults ++ ":"
    ++ model ++ ":" ++ toString useLLM ++ ":" ++ toString skipTavily

/-- The cache-check step of `comprehensiveSearch`: on a hit the cached
response is returned with the `fromCache` flag added by object spread. -/
def cacheHitResponse (c : CacheMap SearchResponse) (key : String) (now : ℤ) :
    Option SearchResponse :=
  match (cacheGet c key now).1 with
  | some r => some { r with fromCache := some true }
  | none => none

/-- `generateMockResults`: the fixed five-item fallback set, one item per
knowledge level 1..5, all tagged `provider: "mock"`. -/
def generateMockResults (query : String) : List SearchResult :=
  [ { title := "The Fascinating World of " ++ query,
      url := "https://example.com/intro",
      content := "A comprehensive introduction to " ++ query
        ++ " covering basic concepts and fundamentals.",
      score := 95/100,
      image := some "https://source.unsplash.com/random/800x600/?technology",
      provider := "mock", knowledgeLevel := some 1 },
    { title := "Hidden Secrets of " ++ query,
      url := "https://example.com/secrets",
      content := "Discover the lesser-known aspects of " ++ query
        ++ " that experts rarely discuss.",
      score := 92/100,
      image := some "https://source.unsplash.com/random/800x600/?mystery",
      provider := "mock", knowledgeLevel := some 2 },
    { title := "Deep Dive into " ++ query,
      url := "https://example.com/deep-dive",
      content := "An in-depth exploration of the complex mechanisms and theories behind "
        ++ query ++ ".",
      score := 89/100,
      image := some "https://source.unsplash.com/random/800x600/?ocean",
      provider := "mock", knowledgeLevel := some 3 },
    { title := "Expert Analysis of " ++ query,
      url := "https://example.com/expert",
      content := "Specialized knowledge and technical details about " ++ query
        ++ " that only experts in the field understand.",
      score := 85/100,
      image := some "https://source.unsplash.com/random/800x600/?microscope",
      provider := "mock", knowledgeLevel := some 4 },
    { title := "Obscure Facts About " ++ query,
      url := "https://example.com/obscure",
      content := "Rare and little-known information about " ++ query
        ++ " that even most experts aren't aware of.",
      score := 82/100,
      image := some "https://source.unsplash.com/random/800x600/?ancient",
      provider := "mock", knowledgeLevel := some 5 } ]

/-- The algorithmic fallback level `Math.min(5, Math.ceil((index + 1) / 3))`
used by the LLM-enhancement branch of `comprehensiveSearch`. -/
def algorithmicLevel (index : ℕ) : ℕ :=
  min 5 (⌈((index : ℚ) + 1) / 3⌉).toNat

/-- `enhancedMap.get(result.title) || fallback`: a missing title or a falsy
(zero) stored level falls back to the algorithmic level. -/
def enhancedLevelFor (m : List (String × ℕ)) (title : String) (index : ℕ) : ℕ :=
  match m.lookup title with
  | some v => if v = 0 then algorithmicLevel index else v
  | none => algorithmicLevel index

/-- Projection of a merged record back to the `SearchResult` shape carried by
the response (the extra `id`/`description` fields just ride along in JS). -/
def toSearchResult (m : MergedResult) : SearchResult where
  title := m.title
  url := m.url
  content := m.content
  score := m.score
  image := some m.image
  provider := m.provider
  knowledgeLevel := some m.knowledgeLevel

/-- The deterministic data path of `comprehensiveSearch` after the cache
check, as a function of the environment's behaviour: `availableProviders` is
the router's answer, `outcome p` is `none` when provider `p`'s fetch threw or
timed out and `some rs` when it returned `rs`, `openrouterDeprecated` is the
router's answer for the LLM gateway, and `llmLevels` is `some` title→level
map on LLM success and `none` on LLM failure/timeout.  Providers that fail or
return no results contribute nothing; if nothing at all was collected the
mock fallback set is used; the LLM branch (when enabled) reassigns knowledge
levels; results are merged with the static weight table only when more than
one provider contributed; the final list is truncated to `maxResults`. -/
def comprehensiveSearchModel (query : String) (maxResults : ℕ) (useLLM : Bool)
    (availableProviders : List String)
    (outcome : String → Option (List SearchResult))
    (openrouterDeprecated : Bool)
    (llmLevels : Option (List (String × ℕ))) : SearchResponse :=
  let fetched : List (String × List SearchResult) :=
    availableProviders.filterMap (fun p =>
      match outcome p with
      | some rs => if rs = [] then none else some (p, rs)
      | none => none)
  let providersUsed := fetched.map (fun pr => pr.1)
  let allResults := (fetched.map (fun pr => pr.2)).flatten
  let state :=
    if allResults = [] then
      (generateMockResults query, [("mock", generateMockResults query)],
       providersUsed ++ ["mock"])
    else (allResults, fetched, providersUsed)
  let allResults := state.1
  let resultsByProvider := state.2.1
  let providersUsed := state.2.2
  let allResults :=
    if useLLM ∧ allResults ≠ [] then
      if openrouterDeprecated then
        allResults.mapIdx (fun i r => { r with knowledgeLevel := some (algorithmicLevel i) })
      else
        match llmLevels with
        | some m =>
          allResults.mapIdx (fun i r =>
            { r with knowledgeLevel := some (enhancedLevelFor m r.title i) })
        | none =>
          allResults.mapIdx (fun i r => { r with knowledgeLevel := some (algorithmicLevel i) })
    else allResults
  let allResults :=
    if 1 < resultsByProvider.length then
      (mergeProviderResults defaultProviderWeights resultsByProvider).map toSearchResult
    else allResults
  { results := allResults.take maxResults
    query := query
    providers := providersUsed
    searchId := "search"
    fromCache := none }

/-! ## `withConcurrencyLimit` (`src/lib/utils/async-utils.ts`) -/

/-- One completed operation writes its result at its own index
(`results[index] = await operation(items[index], index)`). -/
def applyCompletion {α β : Type} (items : List α) (op : α → ℕ → β)
    (acc : List (Option β)) (i : ℕ) : List (Option β) :=
  match items[i]? with
  | some a => acc.set i (some (op a i))
  | none => acc

/-- The result array of `withConcurrencyLimit` as a function of the order in
which the in-flight operations complete: starting from an array of `n` empty
slots, each completion fills the slot of its own index.  Index claiming
(`currentIndex++`) is synchronous and in order; only completion order is up
to the scheduler. -/
def withConcurrencyLimit {α β : Type} (items : List α) (op : α → ℕ → β)
    (completionOrder : List ℕ) : List (Option β) :=
  completionOrder.foldl (applyCompletion items op)
    (List.replicate items.length none)

/-- Which completion orders the scheduler can produce under a concurrency
limit `c`: every index completes exactly once, and the `j`-th completion
(0-based) must be an index already claimed at that point — initially
`min c n` indices are claimed and each completion claims one more, so the
`j`-th completed index is below `min n (c + j)`. -/
def FeasibleOrder (c n : ℕ) (order : List ℕ) : Prop :=
  order.Perm (List.range n) ∧
    ∀ j : Fin order.length, order.get j < min n (c + j.1)

/-! ## Helper lemmas about the router operations -/

theorem trackIfTruthy_failureCount (st : ProviderStatus) (rt : Option ℚ) :
    (trackIfTruthy st rt).failureCount = st.failureCount := by
  unfold trackIfTruthy trackResponseTime
  cases rt with
  | none => rfl
  | some r => by_cases h : r = 0 <;> simp [h]

theorem trackIfTruthy_isDeprecated (st : ProviderStatus) (rt : Option ℚ) :
    (trackIfTruthy st rt).isDeprecated = st.isDeprecated := by
  unfold trackIfTruthy trackResponseTime
  cases rt with
  | none => rfl
  | some r => by_cases h : r = 0 <;> simp [h]

theorem trackIfTruthy_weight (st : ProviderStatus) (rt : Option ℚ) :
    (trackIfTruthy st rt).weight = st.weight := by
  unfold trackIfTruthy trackResponseTime
  cases rt with
  | none => rfl
  | some r => by_cases h : r = 0 <;> simp [h]

theorem trackIfTruthy_successCount (st : ProviderStatus) (rt : Option ℚ) :
    (trackIfTruthy st rt).successCount = st.successCount := by
  unfold trackIfTruthy trackResponseTime
  cases rt with
  | none => rfl
  | some r => by_cases h : r = 0 <;> simp [h]

theorem updateHealthStatus_failureCount (st : ProviderStatus) :
    (updateHealthStatus st).failureCount = st.failureCount := rfl

theorem updateHealthStatus_isDeprecated (st : ProviderStatus) :
    (updateHealthStatus st).isDeprecated = st.isDeprecated := rfl

theorem updateHealthStatus_weight (st : ProviderStatus) :
    (updateHealthStatus st).weight = st.weight := rfl

theorem updateProviderWeight_failureCount (st : ProviderStatus) :
    (updateProviderWeight st).failureCount = st.failureCount := by
  unfold updateProviderWeight
  by_cases h3 : st.failureCount ≥ 3 <;> simp [h3]

theorem updateProviderWeight_isDeprecated_of_lt (st : ProviderStatus)
    (h : st.failureCount < 3) :
    (updateProviderWeight st).isDeprecated = st.isDeprecated := by
  have h3 : ¬(st.failureCount ≥ 3) := by omega
  unfold updateProviderWeight
  simp [h3]

theorem updateProviderWeight_deprecates (st : ProviderStatus)
    (h : 3 ≤ st.failureCount) :
    (updateProviderWeight st).isDeprecated = true ∧ (updateProviderWeight st).weight = 0 := by
  have h3 : st.failureCount ≥ 3 := h
  unfold updateProviderWeight
  simp [h3]

theorem recordProviderFailure_ordinary_failureCount (st : ProviderStatus) (t : ℤ)
    (m : Option String) (r : Option ℚ) :
    (recordProviderFailure st t m false r).failureCount = st.failureCount + 1 := by
  unfold recordProviderFailure
  simp only [if_neg Bool.false_ne_true, updateHealthStatus_failureCount,
    updateProviderWeight_failureCount, trackIfTruthy_failureCount]

theorem recordProviderFailure_ordinary_isDeprecated (st : ProviderStatus) (t : ℤ)
    (m : Option String) (r : Option ℚ) (h : st.failureCount + 1 < 3) :
    (recordProviderFailure st t m false r).isDeprecated = st.isDeprecated := by
  unfold recordProviderFailure
  simp only [if_neg Bool.false_ne_true, updateHealthStatus_isDeprecated]
  rw [updateProviderWeight_isDeprecated_of_lt, trackIfTruthy_isDeprecated]
  rw [trackIfTruthy_failureCount]
  exact h

theorem recordProviderFailure_ordinary_deprecates (st : ProviderStatus) (t : ℤ)
    (m : Option String) (r : Option ℚ) (h : 3 ≤ st.failureCount + 1) :
    (recordProviderFailure st t m false r).isDeprecated = true ∧
    (recordProviderFailure st t m false r).weight = 0 := by
  unfold recordProviderFailure
  simp only [if_neg Bool.false_ne_true, updateHealthStatus_isDeprecated,
    updateHealthStatus_weight]
  apply updateProviderWeight_deprecates
  rw [trackIfTruthy_failureCount]
  exact h

theorem recordProviderFailure_rateLimit (st : ProviderStatus) (t : ℤ)
    (m : Option String) (r : Option ℚ) :
    (recordProviderFailure st t m true r).isDeprecated = true ∧
    (recordProviderFailure st t m true r).weight = 0 := by
  unfold recordProviderFailure
  simp

/-! ## Claim C3 -/

/-- C3: starting from a healthy status (`failureCount = 0`,
`isDeprecated = false`), three consecutive ordinary failures leave the
provider deprecated with weight `0`; and a single rate-limit failure
deprecates any status immediately with weight `0`, regardless of history. -/
theorem three_failures_or_rate_limit_deprecate (st st' : ProviderStatus)
    (hfc : st.failureCount = 0) (hdep : st.isDeprecated = false)
    (t1 t2 t3 t : ℤ) (m1 m2 m3 m : Option String) (r1 r2 r3 r : Option ℚ) :
    ((recordProviderFailure (recordProviderFailure (recordProviderFailure st t1 m1 false r1)
        t2 m2 false r2) t3 m3 false r3).isDeprecated = true ∧
     (recordProviderFailure (recordProviderFailure (recordProviderFailure st t1 m1 false r1)
        t2 m2 false r2) t3 m3 false r3).weight = 0) ∧
    ((recordProviderFailure st' t m true r).isDeprecated = true ∧
     (recordProviderFailure st' t m true r).weight = 0) := by
  refine ⟨?_, recordProviderFailure_rateLimit st' t m r⟩
  have h1 : (recordProviderFailure st t1 m1 false r1).failureCount = 1 := by
    rw [recordProviderFailure_ordinary_failureCount, hfc]
  have h2 : (recordProviderFailure (recordProviderFailure st t1 m1 false r1)
      t2 m2 false r2).failureCount = 2 := by
    rw [recordProviderFailure_ordinary_failureCount, h1]
  apply recordProviderFailure_ordinary_deprecates
  omega

/-- C3 witness: the two deprecation scenarios at the initial status. -/
theorem three_failures_or_rate_limit_deprecate_witness :
    (initialProviderStatus.failureCount = 0 ∧ initialProviderStatus.isDeprecated = false) ∧
    (((recordProviderFailure (recordProviderFailure (recordProviderFailure
        initialProviderStatus 1 none false none) 2 none false none)
        3 none false none).isDeprecated = true ∧
      (recordProviderFailure (recordProviderFailure (recordProviderFailure
        initialProviderStatus 1 none false none) 2 none false none)
        3 none false none).weight = 0) ∧
     ((recordProviderFailure initialProviderStatus 4 (some "quota exceeded") true none).isDeprecated = true ∧
      (recordProviderFailure initialProviderStatus 4 (some "quota exceeded") true none).weight = 0)) :=
  ⟨⟨rfl, rfl⟩,
   three_failures_or_rate_limit_deprecate initialProviderStatus initialProviderStatus
     rfl rfl 1 2 3 4 none none none (some "quota exceeded") none none none none⟩

/-! ## Claim C5 -/

/-- C5: a deprecated provider with failure time `t` stays unchanged while the
elapsed time is within the adaptive cooldown (base 5 minutes, 1 hour when the
recorded error message marks a rate limit, multiplied by the per-provider
escalation factor and clamped to one minute .. 24 hours, in milliseconds);
once the elapsed time strictly exceeds the cooldown it is reset to
`isDeprecated = false` with probation weight `0.3 ∈ [0.3, 0.5]`, strictly
below full trust. -/
theorem recovery_cooldown_behaviour (st : ProviderStatus) (now t : ℤ)
    (hdep : st.isDeprecated = true) (hlf : st.lastFailureTime = some t) (ht : t ≠ 0) :
    ((((now - t : ℤ) : ℚ) ≤
        min 86400000 (max 60000
          ((if hasRateLimitMessage st then (3600000 : ℚ) else 300000) * st.cooldownMultiplier)) →
      checkProviderRecovery st now = st) ∧
     (((now - t : ℤ) : ℚ) >
        min 86400000 (max 60000
          ((if hasRateLimitMessage st then (3600000 : ℚ) else 300000) * st.cooldownMultiplier)) →
      (checkProviderRecovery st now).isDeprecated = false ∧
      (3 : ℚ)/10 ≤ (checkProviderRecovery st now).weight ∧
      (checkProviderRecovery st now).weight ≤ 1/2 ∧
      (checkProviderRecovery st now).weight < 1)) := by
  have hcond : ¬(st.isDeprecated = false ∨ isFalsyTime st.lastFailureTime = true) := by
    rw [hdep, hlf]
    simp [isFalsyTime, ht]
  have hcd : computeCooldown st =
      min 86400000 (max 60000
        ((if hasRateLimitMessage st then (3600000 : ℚ) else 300000) * st.cooldownMultiplier)) := by
    unfold computeCooldown
    rfl
  constructor
  · intro hle
    unfold checkProviderRecovery
    rw [if_neg (by simpa using hcond)]
    rw [hlf]
    simp only [Option.getD_some]
    rw [if_neg (by rw [hcd]; exact not_lt.mpr hle)]
  · intro hgt
    unfold checkProviderRecovery
    rw [if_neg (by simpa using hcond)]
    rw [hlf]
    simp only [Option.getD_some]
    rw [if_pos (by rw [hcd]; exact hgt)]
    refine ⟨rfl, le_refl _, by norm_num, by norm_num⟩

/-- A provider deprecated by a rate-limit failure at time `1000`:
`recordProviderFailure` stamped the message and doubled the cooldown
multiplier, so the adaptive cooldown is `2 × 3600000 = 7200000` ms. -/
def rateLimitedStatus : ProviderStatus :=
  { initialProviderStatus with
      isDeprecated := true
      weight := 0
      lastFailureTime := some 1000
      lastErrorMessage := some "Rate limit exceeded"
      cooldownMultiplier := 2 }

/-- The adaptive cooldown of `rateLimitedStatus` evaluates to two hours. -/
theorem rateLimitedStatus_cooldown :
    min 86400000 (max 60000
      ((if hasRateLimitMessage rateLimitedStatus then (3600000 : ℚ) else 300000) *
        rateLimitedStatus.cooldownMultiplier)) = 7200000 := by
  have hmsg : hasRateLimitMessage rateLimitedStatus = true := by decide
  rw [hmsg]
  rw [show rateLimitedStatus.cooldownMultiplier = 2 from rfl]
  rw [if_pos rfl]
  rw [show max 60000 ((3600000 : ℚ) * 2) = 7200000 by norm_num]
  norm_num

/-- C5 witness: the rate-limited provider is untouched at exactly the
cooldown boundary and reset to probation weight `0.3` one millisecond later. -/
theorem recovery_cooldown_behaviour_witness :
    (checkProviderRecovery rateLimitedStatus (1000 + 7200000) = rateLimitedStatus) ∧
    ((checkProviderRecovery rateLimitedStatus (1001 + 7200000)).isDeprecated = false ∧
     (3 : ℚ)/10 ≤ (checkProviderRecovery rateLimitedStatus (1001 + 7200000)).weight ∧
     (checkProviderRecovery rateLimitedStatus (1001 + 7200000)).weight ≤ 1/2 ∧
     (checkProviderRecovery rateLimitedStatus (1001 + 7200000)).weight < 1) :=
  ⟨(recovery_cooldown_behaviour rateLimitedStatus (1000 + 7200000) 1000 rfl rfl
      (by decide)).1 (by rw [rateLimitedStatus_cooldown]; norm_num),
   (recovery_cooldown_behaviour rateLimitedStatus (1001 + 7200000) 1000 rfl rfl
      (by decide)).2 (by rw [rateLimitedStatus_cooldown]; norm_num)⟩

/-! ## Router operation sequences (for the reachable-state invariant) -/

/-- One invocation of a router operation on a provider's status.  The
selection and sorting parts of `getAvailableProviders` only read state; its
effect on each status is the per-provider `checkProviderRecovery` call. -/
inductive RouterOp where
  | failure (now : ℤ) (errMsg : Option String) (isRateLimit : Bool) (responseTime : Option ℚ)
  | success (responseTime : Option ℚ)
  | checkRecovery (now : ℤ)
  | reset (initialWeight : ℚ)
  | getAvailable (now : ℤ)
deriving Repr

def applyRouterOp (st : ProviderStatus) : RouterOp → ProviderStatus
  | .failure now m rl rt => recordProviderFailure st now m rl rt
  | .success rt => recordProviderSuccess st rt
  | .checkRecovery now => checkProviderRecovery st now
  | .reset w => resetProviderStatus st w
  | .getAvailable now => checkProviderRecovery st now

def runRouterOps (st : ProviderStatus) : List RouterOp → ProviderStatus
  | [] => st
  | op :: ops => runRouterOps (applyRouterOp st op) ops

/-! ## Concrete sample data -/

/-- Two results from different providers whose URLs normalize identically. -/
def dupUrlResultA : SearchResult :=
  ⟨"A", "https://example.com/x/", "a", 3/10, none, "tavily", none⟩

def dupUrlResultB : SearchResult :=
  ⟨"B", "example.com/x", "b", 1, none, "exa", none⟩

/-- A tavily result with score `1/2` (for the router-weight counterexample). -/
def halfScoreResult : SearchResult :=
  ⟨"C", "https://example.com/c", "c", 1/2, none, "tavily", none⟩

/-- Three tavily results without knowledge levels. -/
def levelsTavily : List SearchResult :=
  [⟨"T1", "https://t.com/1", "x", 9/10, none, "tavily", none⟩,
   ⟨"T2", "https://t.com/2", "x", 8/10, none, "tavily", none⟩,
   ⟨"T3", "https://t.com/3", "x", 7/10, none, "tavily", none⟩]

/-- Three exa results without knowledge levels. -/
def levelsExa : List SearchResult :=
  [⟨"E1", "https://e.com/1", "x", 9/10, none, "exa", none⟩,
   ⟨"E2", "https://e.com/2", "x", 8/10, none, "exa", none⟩,
   ⟨"E3", "https://e.com/3", "x", 7/10, none, "exa", none⟩]

/-- Outcome map: tavily and exa return the level-less samples. -/
def levelsOutcome : String → Option (List SearchResult) := fun p =>
  if p = "tavily" then some levelsTavily
  else if p = "exa" then some levelsExa
  else none

/-- The response of the model when every provider fails, LLM enhancement is
requested, and the LLM gateway is deprecated. -/
def allFailLLMResponse : SearchResponse :=
  comprehensiveSearchModel "q" 10 true ["tavily", "exa", "google"] (fun _ => none) true none

/-! ## Claim C1 -/

/-- C1 counterexample: after one ordinary tavily failure the router weight is
`0.73`, yet the live merge step still multiplies tavily scores by the static
table weight `1.0` — a result with original score `1/2` keeps merged score
`1/2`, not `1/2 × 0.73`. -/
theorem merge_ignores_router_weight_cex :
    (recordProviderFailure initialProviderStatus 1000 none false none).weight = 73/100 ∧
    (mergeProviderResults defaultProviderWeights [("tavily", [halfScoreResult])]).map
      (fun e => e.score) = [1/2] ∧
    ¬((1 : ℚ)/2 = 1/2 * (73/100)) := by
  refine ⟨?_, ?_, by norm_num⟩
  · simp +decide [recordProviderFailure, updateProviderWeight, newWeightOf, failureRatioOf,
      responseTimeFactorOf, updateHealthStatus, healthStatusOf, trackIfTruthy,
      trackResponseTime, averageResponseTime, initialProviderStatus, errorMessageOrDefault]
    all_goals norm_num
  · simp +decide [mergeProviderResults, ensureKnowledgeLevels, sortByScoreDesc, dedupGo,
      flattenResults, weightResults, processResult, jsOr, weightFor, defaultProviderWeights,
      normalizeUrl, strTrim, strDropTrailingSlashes, strStartsWith, strDropChars,
      strToLower, charsInclude, List.mergeSort, List.merge, List.lookup, halfScoreResult]

/-! ## Claim C2 -/

/-- C2 counterexample: two providers return the same URL (modulo
normalization); the merger keeps the first occurrence in flattening order —
tavily's entry with weighted score `0.3` — and drops exa's entry with the
higher weighted score `0.9`. -/
theorem merge_dedup_drops_higher_score_cex :
    normalizeUrl dupUrlResultA.url = normalizeUrl dupUrlResultB.url ∧
    jsOr dupUrlResultA.score (1/2) * weightFor defaultProviderWeights "tavily" = 3/10 ∧
    jsOr dupUrlResultB.score (1/2) * weightFor defaultProviderWeights "exa" = 9/10 ∧
    (mergeProviderResults defaultProviderWeights
      [("tavily", [dupUrlResultA]), ("exa", [dupUrlResultB])]).map
      (fun e => e.score) = [3/10] ∧
    ¬((3 : ℚ)/10 = 9/10) := by
  refine ⟨?_, ?_, ?_, ?_, by norm_num⟩ <;>
    simp +decide [mergeProviderResults, ensureKnowledgeLevels, sortByScoreDesc, dedupGo,
      flattenResults, weightResults, processResult, jsOr, weightFor, defaultProviderWeights,
      normalizeUrl, strTrim, strDropTrailingSlashes, strStartsWith, strDropChars,
      strToLower, charsInclude, List.mergeSort, List.merge, List.lookup, dupUrlResultA,
      dupUrlResultB] <;>
    norm_num

/-! ## Claim C4 (counterexample) -/

/-- C4 counterexample: a rate-limit failure (deprecating the provider)
followed by one more ordinary failure is a sequence of router operations that
leaves the provider deprecated with weight `0.03 ≠ 0` — `updateProviderWeight`
blends the weight without re-checking the deprecation flag. -/
theorem router_invariant_cex :
    (runRouterOps initialProviderStatus
      [.failure 1 none true none, .failure 2 none false none]).isDeprecated = true ∧
    (runRouterOps initialProviderStatus
      [.failure 1 none true none, .failure 2 none false none]).weight = 3/100 ∧
    ¬((3 : ℚ)/100 = 0) := by
  refine ⟨?_, ?_, by norm_num⟩ <;>
    simp +decide [runRouterOps, applyRouterOp, recordProviderFailure, updateProviderWeight,
      newWeightOf, failureRatioOf, responseTimeFactorOf, updateHealthStatus, healthStatusOf,
      trackIfTruthy, trackResponseTime, averageResponseTime, initialProviderStatus,
      errorMessageOrDefault] <;>
    norm_num

/-! ## Claim C6 -/

/-- C6: every merged result that lacked a knowledge level has already been
defaulted to level `1` by the merger's `knowledgeLevel: result.knowledgeLevel
|| 1` field before `ensureKnowledgeLevels` runs, so the position-based
bucketing never fires: six level-less results from two providers all come out
at level `1`, although the bucketing itself (`positionLevel`) would put the
last of six at level `5`; the same happens end-to-end in the orchestrator
model with LLM enhancement disabled. -/
theorem merger_defaults_all_levels_to_one :
    (mergeProviderResults defaultProviderWeights
      [("tavily", levelsTavily), ("exa", levelsExa)]).map
      (fun e => e.knowledgeLevel) = [1, 1, 1, 1, 1, 1] ∧
    positionLevel 6 5 = 5 ∧ ¬(5 = 1) ∧
    (comprehensiveSearchModel "volcanoes" 10 false ["tavily", "exa"]
      levelsOutcome false none).results.map (fun r => r.knowledgeLevel) =
      [some 1, some 1, some 1, some 1, some 1, some 1] := by
  refine ⟨?_, ?_, by norm_num, ?_⟩
  · simp +decide [mergeProviderResults, ensureKnowledgeLevels, sortByScoreDesc, dedupGo,
      flattenResults, weightResults, processResult, jsOr, weightFor, defaultProviderWeights,
      normalizeUrl, strTrim, strDropTrailingSlashes, strStartsWith, strDropChars,
      strToLower, charsInclude, List.mergeSort, List.merge, List.lookup, levelsTavily,
      levelsExa]
    all_goals norm_num
  · norm_num [positionLevel]
    rw [show ⌈(25 : ℚ) / 6⌉ = 5 by norm_num [Int.ceil_eq_iff]]
    rfl
  · simp +decide [comprehensiveSearchModel, levelsOutcome, levelsTavily, levelsExa,
      mergeProviderResults, ensureKnowledgeLevels, sortByScoreDesc, dedupGo,
      flattenResults, weightResults, processResult, jsOr, weightFor, defaultProviderWeights,
      normalizeUrl, strTrim, strDropTrailingSlashes, strStartsWith, strDropChars,
      strToLower, charsInclude, List.mergeSort, List.merge, List.lookup]
    all_goals norm_num [toSearchResult]

/-- The algorithmic fallback levels for the first five positions. -/
theorem algorithmicLevel_eval :
    algorithmicLevel 0 = 1 ∧ algorithmicLevel 1 = 1 ∧ algorithmicLevel 2 = 1 ∧
    algorithmicLevel 3 = 2 ∧ algorithmicLevel 4 = 2 := by
  have h0 : ⌈(((0 : ℕ) : ℚ) + 1) / 3⌉ = 1 := by
    rw [Int.ceil_eq_iff]
    constructor <;> norm_num
  have h1 : ⌈(((1 : ℕ) : ℚ) + 1) / 3⌉ = 1 := by
    rw [Int.ceil_eq_iff]
    constructor <;> norm_num
  have h2 : ⌈(((2 : ℕ) : ℚ) + 1) / 3⌉ = 1 := by
    rw [Int.ceil_eq_iff]
    constructor <;> norm_num
  have h3 : ⌈(((3 : ℕ) : ℚ) + 1) / 3⌉ = 2 := by
    rw [Int.ceil_eq_iff]
    constructor <;> norm_num
  have h4 : ⌈(((4 : ℕ) : ℚ) + 1) / 3⌉ = 2 := by
    rw [Int.ceil_eq_iff]
    constructor <;> norm_num
  refine ⟨?_, ?_, ?_, ?_, ?_⟩ <;> unfold algorithmicLevel
  · rw [h0]
    rfl
  · rw [h1]
    rfl
  · rw [h2]
    rfl
  · rw [h3]
    rfl
  · rw [h4]
    rfl

/-! ## Claim C7 -/

/-- C7 counterexample: when every provider fails with LLM enhancement enabled
and the LLM gateway deprecated, the five mock items are returned but their
knowledge levels are reassigned by the algorithmic formula to `1,1,1,2,2` —
the response has no level-5 item, so it is not one item per level 1..5. -/
theorem mock_fallback_relevelled_cex :
    allFailLLMResponse.results.map (fun r => r.knowledgeLevel) =
      [some 1, some 1, some 1, some 2, some 2] ∧
    allFailLLMResponse.results.length = 5 ∧
    (allFailLLMResponse.results.filter (fun r => r.knowledgeLevel == some 5)).length = 0 := by
  refine ⟨?_, ?_, ?_⟩ <;>
    simp +decide [allFailLLMResponse, comprehensiveSearchModel, generateMockResults,
      algorithmicLevel_eval.1, algorithmicLevel_eval.2.1, algorithmicLevel_eval.2.2.1,
      algorithmicLevel_eval.2.2.2.1, algorithmicLevel_eval.2.2.2.2]

/-- C7 (amended): when every provider fails or returns zero results and LLM
enhancement is disabled, the model totally (never throwing) returns exactly
the five mock results, all tagged `provider = "mock"`, one per knowledge
level 1..5, with `"mock"` listed among the contributing providers. -/
theorem mock_fallback_on_total_failure (query : String) (providers : List String)
    (outcome : String → Option (List SearchResult)) (dep : Bool)
    (llm : Option (List (String × ℕ))) (maxResults : ℕ)
    (h : ∀ p, outcome p = none ∨ outcome p = some []) (hmax : 5 ≤ maxResults) :
    (comprehensiveSearchModel query maxResults false providers outcome dep llm).results =
      generateMockResults query ∧
    (comprehensiveSearchModel query maxResults false providers outcome dep llm).results.length = 5 ∧
    (∀ r ∈ (comprehensiveSearchModel query maxResults false providers outcome dep llm).results,
      r.provider = "mock") ∧
    (comprehensiveSearchModel query maxResults false providers outcome dep llm).results.map
      (fun r => r.knowledgeLevel) = [some 1, some 2, some 3, some 4, some 5] ∧
    "mock" ∈ (comprehensiveSearchModel query maxResults false providers outcome dep llm).providers := by
  have hfm : providers.filterMap (fun p =>
      match outcome p with
      | some rs => if rs = [] then none else some (p, rs)
      | none => none) = [] := by
    rw [List.filterMap_eq_nil_iff]
    intro p hp
    rcases h p with h' | h' <;> simp [h']
  have htake : (generateMockResults query).take maxResults = generateMockResults query :=
    List.take_of_length_le (by simp [generateMockResults]; omega)
  unfold comprehensiveSearchModel
  rw [hfm]
  simp only [List.map_nil, List.flatten_nil, if_true, ite_true, ite_false,
    List.length_cons, List.length_nil, List.length_singleton, Nat.lt_irrefl,
    false_and, if_false, List.nil_append, Bool.false_eq_true]
  norm_num
  refine ⟨?_, ?_, ?_, ?_⟩
  · simp only [generateMockResults, List.length_cons, List.length_nil]
    omega
  · simp only [generateMockResults, List.length_cons, List.length_nil]
    omega
  · rw [htake]
    intro r hr
    simp only [generateMockResults, List.mem_cons, List.not_mem_nil, or_false] at hr
    rcases hr with h | h | h | h | h <;> subst h <;> rfl
  · rw [List.take_of_length_le (by simp [generateMockResults]; omega)]
    rfl

/-- C7 witness: the amended theorem at the all-fail outcome with the default
result budget. -/
theorem mock_fallback_on_total_failure_witness :
    ((∀ p, (fun (_ : String) => (none : Option (List SearchResult))) p = none ∨
        (fun (_ : String) => (none : Option (List SearchResult))) p = some []) ∧ 5 ≤ 10) ∧
    ((comprehensiveSearchModel "volcanoes" 10 false ["tavily", "exa", "google"]
        (fun _ => none) false none).results = generateMockResults "volcanoes" ∧
     (comprehensiveSearchModel "volcanoes" 10 false ["tavily", "exa", "google"]
        (fun _ => none) false none).results.length = 5 ∧
     (∀ r ∈ (comprehensiveSearchModel "volcanoes" 10 false ["tavily", "exa", "google"]
        (fun _ => none) false none).results, r.provider = "mock") ∧
     (comprehensiveSearchModel "volcanoes" 10 false ["tavily", "exa", "google"]
        (fun _ => none) false none).results.map (fun r => r.knowledgeLevel) =
       [some 1, some 2, some 3, some 4, some 5] ∧
     "mock" ∈ (comprehensiveSearchModel "volcanoes" 10 false ["tavily", "exa", "google"]
        (fun _ => none) false none).providers) :=
  ⟨⟨fun _ => Or.inl rfl, by norm_num⟩,
   mock_fallback_on_total_failure "volcanoes" ["tavily", "exa", "google"]
     (fun _ => none) false none 10 (fun _ => Or.inl rfl) (by norm_num)⟩

/-! ## Claim C8 -/

/-- C8: caching a response under its parameter-tuple key and reading the same
key within the TTL returns the cached response with only `fromCache` flipped
to `true`; every other field is unchanged. -/
theorem cache_roundtrip_fromCache (c : CacheMap SearchResponse) (resp : SearchResponse)
    (query searchDepth model : String) (maxResults : ℕ) (useLLM skipTavily : Bool)
    (ttl t now : ℤ) (hnow : now ≤ t + ttl) :
    cacheHitResponse
      (cacheSet c (searchCacheKey query searchDepth maxResults model useLLM skipTavily)
        resp ttl t)
      (searchCacheKey query searchDepth maxResults model useLLM skipTavily) now =
      some { resp with fromCache := some true } ∧
    ({ resp with fromCache := some true } : SearchResponse).results = resp.results ∧
    ({ resp with fromCache := some true } : SearchResponse).query = resp.query ∧
    ({ resp with fromCache := some true } : SearchResponse).providers = resp.providers ∧
    ({ resp with fromCache := some true } : SearchResponse).searchId = resp.searchId ∧
    ({ resp with fromCache := some true } : SearchResponse).fromCache = some true := by
  refine ⟨?_, rfl, rfl, rfl, rfl, rfl⟩
  unfold cacheHitResponse cacheGet cacheSet
  rw [List.lookup_cons_self]
  have hexp : ¬now > t + ttl := by omega
  simp [hexp]

/-- C8 witness: a concrete round trip at the key for the default parameters. -/
theorem cache_roundtrip_fromCache_witness :
    ((100 : ℤ) ≤ 0 + 600000) ∧
    (cacheHitResponse
      (cacheSet [] (searchCacheKey "volcanoes" "advanced" 10 "openai/gpt-3.5-turbo" true false)
        ⟨[], "volcanoes", ["mock"], "search", none⟩ 600000 0)
      (searchCacheKey "volcanoes" "advanced" 10 "openai/gpt-3.5-turbo" true false) 100 =
      some ⟨[], "volcanoes", ["mock"], "search", some true⟩) :=
  ⟨by norm_num,
   (cache_roundtrip_fromCache [] ⟨[], "volcanoes", ["mock"], "search", none⟩
     "volcanoes" "advanced" "openai/gpt-3.5-turbo" 10 true false 600000 0 100
     (by norm_num)).1⟩

/-! ## Claim C10 -/

/-- C10: in the router-exported merge, a provider whose stored weight is
exactly `0` (its value while deprecated) falls back to weight `1` via the
falsy-lookup `providerStatuses[p]?.weight || 1`, so its results are merged
with their scores unchanged (full strength) rather than zeroed out. -/
theorem router_merge_zero_weight_full_strength
    (statuses : List (String × ProviderStatus)) (p : String) (st : ProviderStatus)
    (rs : List SearchResult) (hlk : statuses.lookup p = some st) (hw : st.weight = 0) :
    routerEffectiveWeight statuses p = 1 ∧
    (routerMergeProviderResults statuses [(p, rs)]).Perm rs := by
  have heff : routerEffectiveWeight statuses p = 1 := by
    unfold routerEffectiveWeight
    rw [hlk]
    simp [hw]
  refine ⟨heff, ?_⟩
  unfold routerMergeProviderResults
  by_cases hrs : rs = []
  · subst hrs
    simp [List.mergeSort]
  · have hmap : rs.map (fun r =>
        { r with score := r.score * routerEffectiveWeight statuses p }) = rs := by
      rw [heff]
      refine List.map_id'' (fun r => ?_) rs
      rw [mul_one]
    simp only [List.map_cons, List.map_nil, if_neg hrs, List.flatten_cons,
      List.flatten_nil, List.append_nil]
    rw [hmap]
    exact List.mergeSort_perm rs _

/-- C10 witness: a deprecated zero-weight tavily keeps both sample results at
their original scores. -/
theorem router_merge_zero_weight_full_strength_witness :
    (([("tavily", { initialProviderStatus with weight := 0, isDeprecated := true })].lookup
        "tavily" = some { initialProviderStatus with weight := 0, isDeprecated := true }) ∧
      ({ initialProviderStatus with weight := 0, isDeprecated := true } :
        ProviderStatus).weight = 0) ∧
    (routerEffectiveWeight
        [("tavily", { initialProviderStatus with weight := 0, isDeprecated := true })]
        "tavily" = 1 ∧
      (routerMergeProviderResults
        [("tavily", { initialProviderStatus with weight := 0, isDeprecated := true })]
        [("tavily", [dupUrlResultA, halfScoreResult])]).Perm
        [dupUrlResultA, halfScoreResult]) :=
  ⟨⟨rfl, rfl⟩,
   router_merge_zero_weight_full_strength
     [("tavily", { initialProviderStatus with weight := 0, isDeprecated := true })]
     "tavily" { initialProviderStatus with weight := 0, isDeprecated := true }
     [dupUrlResultA, halfScoreResult] rfl rfl⟩

/-! ## Claim C4 (amended): the weight invariant on good operation sequences -/

/-- The weight/deprecation invariant of the spec, strengthened with the fact
that all recorded response-time samples are nonnegative. -/
def RouterInv (st : ProviderStatus) : Prop :=
  (st.isDeprecated = true → st.weight = 0) ∧
  (st.isDeprecated = false → 1/10 ≤ st.weight ∧ st.weight ≤ 1) ∧
  (∀ x ∈ st.responseTime, 0 ≤ x)

/-- Side condition on one operation: failures are only recorded for providers
the router is still routing to (not deprecated), response times are elapsed
times (nonnegative), and explicit resets use the in-repo initial weights
(all in `[0.1, 1]`). -/
def OkOp (st : ProviderStatus) : RouterOp → Prop
  | .failure _ _ _ rt => st.isDeprecated = false ∧ (∀ r, rt = some r → 0 ≤ r)
  | .success rt => ∀ r, rt = some r → 0 ≤ r
  | .checkRecovery _ => True
  | .reset w => 1/10 ≤ w ∧ w ≤ 1
  | .getAvailable _ => True

/-- A sequence of operations each of which satisfies its side condition in
the state where it runs. -/
def GoodSeq (st : ProviderStatus) : List RouterOp → Prop
  | [] => True
  | op :: ops => OkOp st op ∧ GoodSeq (applyRouterOp st op) ops

theorem failureRatioOf_bounds (st : ProviderStatus) :
    0 ≤ failureRatioOf st ∧ failureRatioOf st ≤ 1 := by
  unfold failureRatioOf
  by_cases h : st.failureCount + st.successCount = 0
  · have hz : st.failureCount = 0 := by omega
    simp [h, hz]
  · rw [if_neg h]
    have hpos : (0 : ℚ) < ((st.failureCount + st.successCount : ℕ) : ℚ) := by
      exact_mod_cast Nat.pos_of_ne_zero h
    constructor
    · positivity
    · rw [div_le_one hpos]
      exact_mod_cast Nat.le_add_right st.failureCount st.successCount

theorem averageResponseTime_nonneg (st : ProviderStatus)
    (hresp : ∀ x ∈ st.responseTime, 0 ≤ x) (avg : ℚ)
    (hav : averageResponseTime st = some avg) : 0 ≤ avg := by
  unfold averageResponseTime at hav
  split at hav
  · exact absurd hav (by simp)
  · have h' : st.responseTime.sum / (st.responseTime.length : ℚ) = avg :=
      Option.some.inj hav
    rw [← h']
    exact div_nonneg (List.sum_nonneg hresp) (by positivity)

theorem responseTimeFactorOf_bounds (st : ProviderStatus)
    (hresp : ∀ x ∈ st.responseTime, 0 ≤ x) :
    0 ≤ responseTimeFactorOf st ∧ responseTimeFactorOf st ≤ 1 := by
  unfold responseTimeFactorOf
  split
  · norm_num
  · rename_i avg hav
    by_cases h0 : avg = 0
    · simp [h0]
    · rw [if_neg h0]
      have hnn : 0 ≤ avg := averageResponseTime_nonneg st hresp avg hav
      constructor
      · exact le_trans (by norm_num) (le_max_left _ _)
      · refine max_le (by norm_num) ?_
        have : 0 ≤ avg / 5000 := by positivity
        linarith

theorem newWeightOf_bounds (st : ProviderStatus)
    (hresp : ∀ x ∈ st.responseTime, 0 ≤ x) :
    1/10 ≤ newWeightOf st ∧ newWeightOf st ≤ 1 := by
  unfold newWeightOf
  obtain ⟨hf1, hf2⟩ := failureRatioOf_bounds st
  obtain ⟨hr1, hr2⟩ := responseTimeFactorOf_bounds st hresp
  refine ⟨le_max_left _ _, max_le (by norm_num) ?_⟩
  nlinarith

theorem updateProviderWeight_inv (st : ProviderStatus)
    (hdep : st.isDeprecated = false)
    (hw : 1/10 ≤ st.weight ∧ st.weight ≤ 1)
    (hresp : ∀ x ∈ st.responseTime, 0 ≤ x) :
    RouterInv (updateProviderWeight st) := by
  obtain ⟨hn1, hn2⟩ := newWeightOf_bounds st hresp
  unfold updateProviderWeight
  split
  · exact ⟨fun _ => rfl, fun h => by simp at h, hresp⟩
  · refine ⟨fun h => ?_, fun _ => ⟨by nlinarith [hw.1, hw.2], by nlinarith [hw.1, hw.2]⟩, hresp⟩
    rw [hdep] at h
    cases h

theorem trackIfTruthy_respOk (st : ProviderStatus) (rt : Option ℚ)
    (hresp : ∀ x ∈ st.responseTime, 0 ≤ x) (hrt : ∀ r, rt = some r → 0 ≤ r) :
    ∀ x ∈ (trackIfTruthy st rt).responseTime, 0 ≤ x := by
  unfold trackIfTruthy trackResponseTime
  cases rt with
  | none => exact hresp
  | some r =>
    by_cases h0 : r = 0
    · simp only [if_pos h0]
      exact hresp
    · simp only [if_neg h0]
      intro x hx
      have hx' : x ∈ r :: st.responseTime := List.mem_of_mem_take hx
      rcases List.mem_cons.mp hx' with h | h
      · exact h ▸ hrt r rfl
      · exact hresp x h

theorem trackIfTruthy_inv (st : ProviderStatus) (rt : Option ℚ)
    (h : RouterInv st) (hrt : ∀ r, rt = some r → 0 ≤ r) :
    RouterInv (trackIfTruthy st rt) := by
  refine ⟨?_, ?_, trackIfTruthy_respOk st rt h.2.2 hrt⟩
  · rw [trackIfTruthy_isDeprecated, trackIfTruthy_weight]
    exact h.1
  · rw [trackIfTruthy_isDeprecated, trackIfTruthy_weight]
    exact h.2.1

theorem updateHealthStatus_inv (st : ProviderStatus) (h : RouterInv st) :
    RouterInv (updateHealthStatus st) := h

theorem successCore_inv (st : ProviderStatus) (h : RouterInv st) :
    RouterInv (successCore st) := by
  unfold successCore
  split
  · rename_i hc
    exact updateProviderWeight_inv _ hc.2 (h.2.1 hc.2) h.2.2
  · split
    · rename_i hdep
      exact ⟨fun hx => by norm_num [resetProviderStatus] at hx,
        fun _ => ⟨by norm_num [resetProviderStatus], by norm_num [resetProviderStatus]⟩,
        h.2.2⟩
    · split
      · rename_i hc hdep _
        have hdep' : st.isDeprecated = false := by
          revert hdep
          cases st.isDeprecated <;> simp
        obtain ⟨hw1, hw2⟩ := h.2.1 hdep'
        refine ⟨fun hx => ?_, fun _ => ⟨?_, ?_⟩, h.2.2⟩
        · rw [hdep'] at hx
          cases hx
        · refine le_min (by norm_num) (by linarith)
        · exact min_le_left _ _
      · exact h

theorem resetProviderStatus_inv (st : ProviderStatus) (iw : ℚ)
    (h : RouterInv st) (hw : 1/10 ≤ iw ∧ iw ≤ 1) :
    RouterInv (resetProviderStatus st iw) :=
  ⟨fun hx => by simp [resetProviderStatus] at hx, fun _ => hw, h.2.2⟩

theorem checkProviderRecovery_inv (st : ProviderStatus) (now : ℤ)
    (h : RouterInv st) : RouterInv (checkProviderRecovery st now) := by
  unfold checkProviderRecovery
  split
  · exact h
  · split
    · exact ⟨fun hx => by simp at hx, fun _ => ⟨by norm_num, by norm_num⟩, h.2.2⟩
    · exact h

theorem recordProviderFailure_inv (st : ProviderStatus) (now : ℤ)
    (m : Option String) (rl : Bool) (rt : Option ℚ)
    (h : RouterInv st) (hdep : st.isDeprecated = false)
    (hrt : ∀ r, rt = some r → 0 ≤ r) :
    RouterInv (recordProviderFailure st now m rl rt) := by
  unfold recordProviderFailure
  have h1 : RouterInv
      { st with failureCount := st.failureCount + 1, lastFailureTime := some now,
                lastErrorMessage := some (errorMessageOrDefault m) } := h
  have h2 := trackIfTruthy_inv _ rt h1 hrt
  set st2 := trackIfTruthy
    { st with failureCount := st.failureCount + 1, lastFailureTime := some now,
              lastErrorMessage := some (errorMessageOrDefault m) } rt with hst2
  have hdep2 : st2.isDeprecated = false := by
    rw [hst2, trackIfTruthy_isDeprecated]
    exact hdep
  split
  · exact ⟨fun _ => rfl, fun hx => by simp at hx, h2.2.2⟩
  · exact updateHealthStatus_inv _
      (updateProviderWeight_inv st2 hdep2 (h2.2.1 hdep2) h2.2.2)

theorem recordProviderSuccess_inv (st : ProviderStatus) (rt : Option ℚ)
    (h : RouterInv st) (hrt : ∀ r, rt = some r → 0 ≤ r) :
    RouterInv (recordProviderSuccess st rt) := by
  unfold recordProviderSuccess
  have h1 : RouterInv { st with successCount := st.successCount + 1 } := h
  exact updateHealthStatus_inv _ (successCore_inv _ (trackIfTruthy_inv _ rt h1 hrt))

theorem applyRouterOp_inv (st : ProviderStatus) (op : RouterOp)
    (h : RouterInv st) (hok : OkOp st op) : RouterInv (applyRouterOp st op) := by
  cases op with
  | failure now m rl rt => exact recordProviderFailure_inv st now m rl rt h hok.1 hok.2
  | success rt => exact recordProviderSuccess_inv st rt h hok
  | checkRecovery now => exact checkProviderRecovery_inv st now h
  | reset w => exact resetProviderStatus_inv st w h hok
  | getAvailable now => exact checkProviderRecovery_inv st now h

theorem runRouterOps_inv (ops : List RouterOp) :
    ∀ st : ProviderStatus, RouterInv st → GoodSeq st ops →
      RouterInv (runRouterOps st ops) := by
  induction ops with
  | nil => exact fun st h _ => h
  | cons op ops ih =>
    intro st h hgood
    exact ih (applyRouterOp st op) (applyRouterOp_inv st op h hgood.1) hgood.2

/-- C4 (amended): starting from the initial status, for every sequence of
router operations in which `recordProviderFailure` is only invoked on a
non-deprecated provider, recorded response times are nonnegative, and
explicit resets use weights in `[0.1, 1]` (as all in-repo call sites do),
the resulting status satisfies: deprecated implies weight `0`, and
non-deprecated implies weight in `[0.1, 1]`. -/
theorem router_weight_invariant (ops : List RouterOp)
    (hgood : GoodSeq initialProviderStatus ops) :
    ((runRouterOps initialProviderStatus ops).isDeprecated = true →
      (runRouterOps initialProviderStatus ops).weight = 0) ∧
    ((runRouterOps initialProviderStatus ops).isDeprecated = false →
      1/10 ≤ (runRouterOps initialProviderStatus ops).weight ∧
      (runRouterOps initialProviderStatus ops).weight ≤ 1) := by
  have hinit : RouterInv initialProviderStatus := by
    refine ⟨fun hx => ?_, fun _ => ⟨by norm_num [initialProviderStatus],
      by norm_num [initialProviderStatus]⟩, ?_⟩
    · simp [initialProviderStatus] at hx
    · intro x hx
      simp [initialProviderStatus] at hx
  have h := runRouterOps_inv ops initialProviderStatus hinit hgood
  exact ⟨h.1, h.2.1⟩

/-- C4 witness: a good two-operation sequence (an ordinary failure on a
healthy provider followed by a success). -/
theorem router_weight_invariant_witness :
    GoodSeq initialProviderStatus
      [.failure 1 none false none, .success (some 100)] ∧
    (((runRouterOps initialProviderStatus
        [.failure 1 none false none, .success (some 100)]).isDeprecated = true →
      (runRouterOps initialProviderStatus
        [.failure 1 none false none, .success (some 100)]).weight = 0) ∧
     ((runRouterOps initialProviderStatus
        [.failure 1 none false none, .success (some 100)]).isDeprecated = false →
      1/10 ≤ (runRouterOps initialProviderStatus
        [.failure 1 none false none, .success (some 100)]).weight ∧
      (runRouterOps initialProviderStatus
        [.failure 1 none false none, .success (some 100)]).weight ≤ 1)) :=
  have hg : GoodSeq initialProviderStatus
      [.failure 1 none false none, .success (some 100)] :=
    ⟨⟨rfl, fun r hr => nomatch hr⟩,
     ⟨fun r hr => by
        rw [← Option.some.inj hr]
        norm_num, trivial⟩⟩
  ⟨hg, router_weight_invariant _ hg⟩

/-! ## Claim C9 -/

theorem applyCompletion_length {α β : Type} (items : List α) (op : α → ℕ → β)
    (acc : List (Option β)) (i : ℕ) :
    (applyCompletion items op acc i).length = acc.length := by
  unfold applyCompletion
  cases h : items[i]? <;> simp

theorem foldl_applyCompletion_length {α β : Type} (items : List α) (op : α → ℕ → β) :
    ∀ (order : List ℕ) (acc : List (Option β)),
      (order.foldl (applyCompletion items op) acc).length = acc.length := by
  intro order
  induction order with
  | nil => intro acc; rfl
  | cons j rest ih =>
    intro acc
    rw [List.foldl_cons, ih, applyCompletion_length]

theorem foldl_applyCompletion_getElem {α β : Type} (items : List α) (op : α → ℕ → β) :
    ∀ (order : List ℕ) (acc : List (Option β)), acc.length = items.length →
      ∀ (i : ℕ) (a : α), items[i]? = some a →
        (order.foldl (applyCompletion items op) acc)[i]? =
          if i ∈ order then some (some (op a i)) else acc[i]? := by
  intro order
  induction order with
  | nil =>
    intro acc _ i a _
    simp
  | cons j rest ih =>
    intro acc hlen i a ha
    rw [List.foldl_cons]
    rw [ih (applyCompletion items op acc j)
      (by rw [applyCompletion_length]; exact hlen) i a ha]
    by_cases hmem : i ∈ rest
    · rw [if_pos hmem, if_pos (List.mem_cons_of_mem j hmem)]
    · rw [if_neg hmem]
      by_cases hij : i = j
      · subst hij
        rw [if_pos (List.mem_cons_self i rest)]
        unfold applyCompletion
        rw [ha]
        have hi : i < acc.length := by
          rw [hlen]
          exact (List.getElem?_eq_some_iff.mp ha).1
        rw [List.getElem?_set_self hi]
      · have hni : i ∉ j :: rest := by
          intro hx
          rcases List.mem_cons.mp hx with h | h
          · exact hij h
          · exact hmem h
        rw [if_neg hni]
        unfold applyCompletion
        cases hj : items[j]? with
        | none => rfl
        | some b => exact List.getElem?_set_ne (fun h => hij h.symm)

/-- C9: for every item list, operation, concurrency `≥ 1` and feasible
completion order of the in-flight operations, the result array of
`withConcurrencyLimit` has one entry per item and position `i` holds
`operation(items[i], i)` — results match input order regardless of
completion order. -/
theorem concurrency_preserves_order {α β : Type} (items : List α) (op : α → ℕ → β)
    (c : ℕ) (order : List ℕ) (hc : 1 ≤ c)
    (hf : FeasibleOrder c items.length order) :
    withConcurrencyLimit items op order = items.mapIdx (fun i a => some (op a i)) := by
  refine (List.mapIdx_eq_iff.mpr ?_).symm
  intro i
  by_cases hi : i < items.length
  · have ha : items[i]? = some items[i] := List.getElem?_eq_getElem hi
    rw [ha]
    unfold withConcurrencyLimit
    rw [foldl_applyCompletion_getElem items op order (List.replicate items.length none)
      (by simp) i items[i] ha]
    have hmem : i ∈ order := (hf.1.mem_iff).mpr (List.mem_range.mpr hi)
    rw [if_pos hmem]
    rfl
  · rw [List.getElem?_eq_none (Nat.le_of_not_lt hi)]
    unfold withConcurrencyLimit
    rw [List.getElem?_eq_none]
    · rfl
    · rw [foldl_applyCompletion_length, List.length_replicate]
      exact Nat.le_of_not_lt hi

/-- C9 witness: three items under concurrency 2, completing out of order
(`order = [1, 0, 2]`), still land in input order. -/
theorem concurrency_preserves_order_witness :
    ((1 : ℕ) ≤ 2 ∧ FeasibleOrder 2 ([10, 20, 30] : List ℕ).length [1, 0, 2]) ∧
    withConcurrencyLimit [10, 20, 30] (fun a i => a + i) [1, 0, 2] =
      [some 10, some 21, some 32] :=
  have hf : FeasibleOrder 2 ([10, 20, 30] : List ℕ).length [1, 0, 2] := by
    constructor
    · decide
    · decide
  ⟨⟨by norm_num, hf⟩, by
    rw [concurrency_preserves_order [10, 20, 30] (fun a i => a + i) 2 [1, 0, 2]
      (by norm_num) hf]
    rfl⟩

/-! ## Claims C1 and C2 (amended): structure of the live merge -/

/-- The predicate of the merger's URL bookkeeping for a target normalized
URL: truthy (non-empty) URL normalizing to `u`. -/
def urlKeyMatches (u : String) (r : SearchResult) : Bool :=
  r.url != "" && (normalizeUrl r.url == u)

theorem mapIdx_back {β : Type} :
    ∀ (l : List MergedResult) (f : ℕ → MergedResult → MergedResult),
      (∀ i r, (f i r).score = r.score ∧ (f i r).provider = r.provider) →
      ∀ e ∈ l.mapIdx f, ∃ x ∈ l, e.score = x.score ∧ e.provider = x.provider := by
  intro l
  induction l with
  | nil =>
    intro f _ e he
    simp at he
  | cons a l ih =>
    intro f hf e he
    rw [List.mapIdx_cons] at he
    rcases List.mem_cons.mp he with h | h
    · exact ⟨a, List.mem_cons_self a l, h ▸ (hf 0 a).1, h ▸ (hf 0 a).2⟩
    · obtain ⟨x, hx, h1, h2⟩ := ih (fun i => f (i + 1))
        (fun i r => hf (i + 1) r) e h
      exact ⟨x, List.mem_cons_of_mem a hx, h1, h2⟩

theorem mapIdx_forward :
    ∀ (l : List MergedResult) (f : ℕ → MergedResult → MergedResult),
      (∀ i r, (f i r).url = r.url ∧ (f i r).score = r.score ∧
        (f i r).provider = r.provider ∧ (f i r).title = r.title) →
      ∀ x ∈ l, ∃ e ∈ l.mapIdx f, e.url = x.url ∧ e.score = x.score ∧
        e.provider = x.provider ∧ e.title = x.title := by
  intro l
  induction l with
  | nil =>
    intro f _ x hx
    simp at hx
  | cons a l ih =>
    intro f hf x hx
    rw [List.mapIdx_cons]
    rcases List.mem_cons.mp hx with h | h
    · subst h
      exact ⟨f 0 x, List.mem_cons_self _ _, (hf 0 x).1, (hf 0 x).2.1,
        (hf 0 x).2.2.1, (hf 0 x).2.2.2⟩
    · obtain ⟨e, he, h1, h2, h3, h4⟩ := ih (fun i => f (i + 1))
        (fun i r => hf (i + 1) r) x h
      exact ⟨e, List.mem_cons_of_mem _ he, h1, h2, h3, h4⟩

theorem countP_mapIdx_url (q : String → Bool) :
    ∀ (l : List MergedResult) (f : ℕ → MergedResult → MergedResult),
      (∀ i r, (f i r).url = r.url) →
      (l.mapIdx f).countP (fun e => q e.url) = l.countP (fun e => q e.url) := by
  intro l
  induction l with
  | nil =>
    intro f _
    simp
  | cons a l ih =>
    intro f hf
    rw [List.mapIdx_cons, List.countP_cons, List.countP_cons,
      ih (fun i => f (i + 1)) (fun i r => hf (i + 1) r), hf 0 a]

theorem ensureKnowledgeLevels_fun_pres (n : ℕ) (i : ℕ) (r : MergedResult) :
    ((if r.knowledgeLevel > 0 then r
      else { r with knowledgeLevel := positionLevel n i }) : MergedResult).url = r.url ∧
    ((if r.knowledgeLevel > 0 then r
      else { r with knowledgeLevel := positionLevel n i }) : MergedResult).score = r.score ∧
    ((if r.knowledgeLevel > 0 then r
      else { r with knowledgeLevel := positionLevel n i }) : MergedResult).provider = r.provider ∧
    ((if r.knowledgeLevel > 0 then r
      else { r with knowledgeLevel := positionLevel n i }) : MergedResult).title = r.title := by
  split <;> exact ⟨rfl, rfl, rfl, rfl⟩

theorem dedupGo_subset :
    ∀ (l : List SearchResult) (seen : List String) (e : MergedResult),
      e ∈ dedupGo l seen → ∃ r ∈ l, e = processResult r := by
  intro l
  induction l with
  | nil =>
    intro seen e he
    simp [dedupGo] at he
  | cons r rest ih =>
    intro seen e he
    unfold dedupGo at he
    split at he
    · obtain ⟨r', hr', he'⟩ := ih seen e he
      exact ⟨r', List.mem_cons_of_mem r hr', he'⟩
    · split at he
      · obtain ⟨r', hr', he'⟩ := ih seen e he
        exact ⟨r', List.mem_cons_of_mem r hr', he'⟩
      · rcases List.mem_cons.mp he with h | h
        · exact ⟨r, List.mem_cons_self r rest, h⟩
        · obtain ⟨r', hr', he'⟩ := ih _ e h
          exact ⟨r', List.mem_cons_of_mem r hr', he'⟩

theorem flattenResults_mem (ws : List (String × ℚ))
    (m : List (String × List SearchResult)) (r' : SearchResult)
    (h : r' ∈ flattenResults ws m) :
    ∃ p rs r, (p, rs) ∈ m ∧ r ∈ rs ∧
      r' = { r with score := jsOr r.score (1/2) * weightFor ws p, provider := p } := by
  unfold flattenResults at h
  rw [List.mem_flatten] at h
  obtain ⟨L, hL, hr'⟩ := h
  rw [List.mem_map] at hL
  obtain ⟨pr, hpr, hLeq⟩ := hL
  subst hLeq
  unfold weightResults at hr'
  rw [List.mem_map] at hr'
  obtain ⟨r, hr, heq⟩ := hr'
  exact ⟨pr.1, pr.2, r, hpr, hr, heq.symm⟩

/-- C1 (amended): every entry of the live merged output carries score
`(original score, with 0 replaced by 0.5) × static table weight of its
provider` (`tavily 1.0, exa 0.9, google 0.8, mock 0.5`, default `0.5`) —
independent of the router's current weights. -/
theorem merge_scores_use_static_weights (m : List (String × List SearchResult))
    (e : MergedResult) (he : e ∈ mergeProviderResults defaultProviderWeights m) :
    ∃ p rs r, (p, rs) ∈ m ∧ r ∈ rs ∧ e.provider = p ∧
      e.score = jsOr r.score (1/2) * weightFor defaultProviderWeights p := by
  unfold mergeProviderResults ensureKnowledgeLevels at he
  obtain ⟨x, hx, hsc, hpr⟩ := mapIdx_back (β := Unit) _ _
    (fun i r => ⟨(ensureKnowledgeLevels_fun_pres _ i r).2.1,
      (ensureKnowledgeLevels_fun_pres _ i r).2.2.1⟩) e he
  have hx' : x ∈ dedupGo (flattenResults defaultProviderWeights m) [] := by
    unfold sortByScoreDesc at hx
    exact List.mem_mergeSort.mp hx
  obtain ⟨r', hr', hxeq⟩ := dedupGo_subset _ _ _ hx'
  obtain ⟨p, rs, r, hm, hr, hreq⟩ := flattenResults_mem _ _ _ hr'
  refine ⟨p, rs, r, hm, hr, ?_, ?_⟩
  · rw [hpr, hxeq]
    show r'.provider = p
    rw [hreq]
  · rw [hsc, hxeq]
    show r'.score = _
    rw [hreq]

/-- A concrete merged entry: the single output of merging the one-element
tavily map `[("tavily", [halfScoreResult])]`. -/
def halfScoreMergedEntry : MergedResult :=
  ⟨uuidPlaceholder, "C", "https://example.com/c", "c", "c", 1/2, "tavily", 1,
    placeholderImage "C"⟩

/-- C1 witness: the amended statement at the one-provider sample map. -/
theorem merge_scores_use_static_weights_witness :
    ∃ p rs r, (p, rs) ∈ [("tavily", [halfScoreResult])] ∧ r ∈ rs ∧
      halfScoreMergedEntry.provider = p ∧
      halfScoreMergedEntry.score = jsOr r.score (1/2) * weightFor defaultProviderWeights p :=
  merge_scores_use_static_weights [("tavily", [halfScoreResult])] halfScoreMergedEntry
    (by
      simp +decide [mergeProviderResults, ensureKnowledgeLevels, sortByScoreDesc, dedupGo,
        flattenResults, weightResults, processResult, jsOr, weightFor, defaultProviderWeights,
        normalizeUrl, strTrim, strDropTrailingSlashes, strStartsWith, strDropChars,
        strToLower, charsInclude, List.mergeSort, List.merge, List.lookup, halfScoreResult,
        halfScoreMergedEntry, uuidPlaceholder, placeholderImage])

theorem dedupGo_countP_seen (u : String) :
    ∀ (l : List SearchResult) (seen : List String), u ∈ seen →
      (dedupGo l seen).countP (fun e => normalizeUrl e.url == u) = 0 := by
  intro l
  induction l with
  | nil =>
    intro seen _
    simp [dedupGo]
  | cons r rest ih =>
    intro seen hu
    unfold dedupGo
    split
    · exact ih seen hu
    · split
      · exact ih seen hu
      · rename_i hurl hseen
        rw [List.countP_cons, ih _ (List.mem_cons_of_mem _ hu)]
        have hne : ¬((fun e => normalizeUrl e.url == u) (processResult r) = true) := by
          intro hx
          rw [beq_iff_eq] at hx
          exact hseen (show normalizeUrl r.url ∈ seen from hx ▸ hu)
        simp [hne]

theorem dedupGo_first (u : String) :
    ∀ (l : List SearchResult) (seen : List String), u ∉ seen →
      ((dedupGo l seen).countP (fun e => normalizeUrl e.url == u) =
        if (l.find? (urlKeyMatches u)).isSome then 1 else 0) ∧
      (∀ r₀, l.find? (urlKeyMatches u) = some r₀ →
        processResult r₀ ∈ dedupGo l seen) := by
  intro l
  induction l with
  | nil =>
    intro seen _
    refine ⟨by simp [dedupGo], ?_⟩
    intro r₀ h
    simp at h
  | cons r rest ih =>
    intro seen hus
    unfold dedupGo
    by_cases hurl : r.url = ""
    · rw [if_pos hurl]
      have hfr : ¬(urlKeyMatches u r = true) := by
        simp [urlKeyMatches, hurl]
      rw [List.find?_cons_of_neg rest hfr]
      exact ih seen hus
    · rw [if_neg hurl]
      by_cases hseen : normalizeUrl r.url ∈ seen
      · rw [if_pos hseen]
        have hfr : ¬(urlKeyMatches u r = true) := by
          simp only [urlKeyMatches, Bool.and_eq_true, beq_iff_eq, bne_iff_ne, ne_eq]
          rintro ⟨-, hequ⟩
          exact hus (hequ ▸ hseen)
        rw [List.find?_cons_of_neg rest hfr]
        exact ih seen hus
      · rw [if_neg hseen]
        by_cases hequ : normalizeUrl r.url = u
        · have hfr : urlKeyMatches u r = true := by
            simp [urlKeyMatches, hurl, hequ]
          rw [List.find?_cons_of_pos rest hfr]
          constructor
          · rw [List.countP_cons,
              dedupGo_countP_seen u rest _ (hequ ▸ List.mem_cons_self _ _)]
            have hhead : (fun e => normalizeUrl e.url == u) (processResult r) = true := by
              show (normalizeUrl r.url == u) = true
              rw [beq_iff_eq]
              exact hequ
            simp [hhead]
          · intro r₀ h
            have hr₀ : r₀ = r := (Option.some.inj h).symm
            subst hr₀
            exact List.mem_cons_self _ _
        · have hfr : ¬(urlKeyMatches u r = true) := by
            simp only [urlKeyMatches, Bool.and_eq_true, beq_iff_eq, bne_iff_ne, ne_eq]
            rintro ⟨-, hx⟩
            exact hequ hx
          rw [List.find?_cons_of_neg rest hfr]
          have hus' : u ∉ normalizeUrl r.url :: seen := by
            intro hx
            rcases List.mem_cons.mp hx with h | h
            · exact hequ h.symm
            · exact hus h
          obtain ⟨ihc, ihm⟩ := ih _ hus'
          constructor
          · rw [List.countP_cons, ihc]
            have hhead : ¬((fun e => normalizeUrl e.url == u) (processResult r) = true) := by
              show ¬((normalizeUrl r.url == u) = true)
              rw [beq_iff_eq]
              exact hequ
            simp [hhead]
          · intro r₀ h
            exact List.mem_cons_of_mem _ (ihm r₀ h)

/-- C2 (amended): whenever some input result has a truthy URL normalizing to
`u`, the merged output contains exactly one entry whose URL normalizes to
`u`, and that entry is the first occurrence of `u` in the merger's
flattening order (provider-map insertion order) with its weighted score —
not necessarily the occurrence with the higher weighted score. -/
theorem merge_dedup_keeps_first_occurrence (ws : List (String × ℚ))
    (m : List (String × List SearchResult)) (u : String)
    (hex : ∃ r ∈ flattenResults ws m, r.url ≠ "" ∧ normalizeUrl r.url = u) :
    (mergeProviderResults ws m).countP (fun e => normalizeUrl e.url == u) = 1 ∧
    ∃ r₀, (flattenResults ws m).find? (urlKeyMatches u) = some r₀ ∧
      ∃ e ∈ mergeProviderResults ws m, normalizeUrl e.url = u ∧ e.url = r₀.url ∧
        e.score = r₀.score ∧ e.provider = r₀.provider ∧ e.title = r₀.title := by
  have hfs : ((flattenResults ws m).find? (urlKeyMatches u)).isSome := by
    rw [List.find?_isSome]
    obtain ⟨r, hr, h1, h2⟩ := hex
    refine ⟨r, hr, ?_⟩
    simp [urlKeyMatches, h1, h2]
  obtain ⟨hc, hm⟩ := dedupGo_first u (flattenResults ws m) [] (by simp)
  rw [if_pos hfs] at hc
  obtain ⟨r₀, hr₀⟩ := Option.isSome_iff_exists.mp hfs
  have hmem := hm r₀ hr₀
  have hcs : (sortByScoreDesc (dedupGo (flattenResults ws m) [])).countP
      (fun e => normalizeUrl e.url == u) = 1 := by
    unfold sortByScoreDesc
    rw [(List.mergeSort_perm _ _).countP_eq]
    exact hc
  have hmems : processResult r₀ ∈ sortByScoreDesc (dedupGo (flattenResults ws m) []) := by
    unfold sortByScoreDesc
    exact List.mem_mergeSort.mpr hmem
  constructor
  · unfold mergeProviderResults ensureKnowledgeLevels
    exact (countP_mapIdx_url (fun s => normalizeUrl s == u) _ _
      (fun i r => (ensureKnowledgeLevels_fun_pres _ i r).1)).trans hcs
  · refine ⟨r₀, hr₀, ?_⟩
    obtain ⟨e, he, h1, h2, h3, h4⟩ := mapIdx_forward _ _
      (fun i r => ensureKnowledgeLevels_fun_pres _ i r) _ hmems
    have hkey : urlKeyMatches u r₀ = true := List.find?_some hr₀
    have hnorm : normalizeUrl r₀.url = u := by
      simp only [urlKeyMatches, Bool.and_eq_true, beq_iff_eq] at hkey
      exact hkey.2
    refine ⟨e, he, ?_, ?_, ?_, ?_, ?_⟩
    · rw [h1]
      show normalizeUrl r₀.url = u
      exact hnorm
    · exact h1
    · exact h2
    · exact h3
    · exact h4

/-- The normalized form of the duplicated sample URL. -/
def dupNormUrl : String := normalizeUrl "https://example.com/x/"

/-- C2 witness: the amended statement at the two-provider duplicate-URL map. -/
theorem merge_dedup_keeps_first_occurrence_witness :
    (mergeProviderResults defaultProviderWeights
      [("tavily", [dupUrlResultA]), ("exa", [dupUrlResultB])]).countP
      (fun e => normalizeUrl e.url == dupNormUrl) = 1 ∧
    ∃ r₀, (flattenResults defaultProviderWeights
        [("tavily", [dupUrlResultA]), ("exa", [dupUrlResultB])]).find?
        (urlKeyMatches dupNormUrl) = some r₀ ∧
      ∃ e ∈ mergeProviderResults defaultProviderWeights
        [("tavily", [dupUrlResultA]), ("exa", [dupUrlResultB])],
        normalizeUrl e.url = dupNormUrl ∧ e.url = r₀.url ∧ e.score = r₀.score ∧
        e.provider = r₀.provider ∧ e.title = r₀.title :=
  merge_dedup_keeps_first_occurrence defaultProviderWeights
    [("tavily", [dupUrlResultA]), ("exa", [dupUrlResultB])] dupNormUrl
    (by decide)

end IcebergGen
